import Mathlib

/-!
# Verification of the phase-sequencing workflow engine

A shallow embedding of the core components of the repository:

* `igent/utils/json_utils.py` — `update_json_list` (the JSON List Store upsert);
* `igent/utils/batch_writer.py` — `BatchWriter.flush`;
* `igent/tools/capacity_tracker.py` / `igent/workflows/workflow.py` — the
  capacity allocator (`update_supplier_capacity` / `Workflow._update_capacity`);
* `igent/utils/processing_utils.py` — `run_with_backoff`, `process_pair`,
  `_extract_json_before_approve`, `_extract_braced_content`.

Modelling conventions:
* Python strings are `List Char`; `str.upper`/`str.lower` act characterwise
  (ASCII case mapping, which is what all the relevant literals use).
* JSON values are the inductive `Json` below.  JSON numbers are modelled as
  integers (the claims under verification never involve fractional literals);
  where the Python code computes a float (`UsedPct`), the model uses exact
  rationals `ℚ`.
* Python dicts are association lists; `dict.get` returns the last binding for
  a key (a dict built by `json.loads` keeps the last duplicate key).
* Fallible Python code is modelled in `Except`: an uncaught Python exception
  is an `Except.error`; `try/except` blocks are explicit `match`es.
-/

namespace Igent

/-- JSON values (numbers modelled as integers, see the header comment). -/
inductive Json where
  | null : Json
  | bool : Bool → Json
  | num : Int → Json
  | str : String → Json
  | arr : List Json → Json
  | obj : List (String × Json) → Json
deriving Repr

mutual

/-- Python `==` on JSON values, including Python's `bool ⊆ int` coercion
(`True == 1`, `False == 0`); lists and dicts compare structurally. -/
def Json.beq : Json → Json → Bool
  | .null, .null => true
  | .bool a, .bool b => a == b
  | .num a, .num b => a == b
  | .bool a, .num b => (if a then (1 : Int) else 0) == b
  | .num a, .bool b => a == (if b then (1 : Int) else 0)
  | .str a, .str b => a == b
  | .arr a, .arr b => Json.beqArr a b
  | .obj a, .obj b => Json.beqObj a b
  | _, _ => false

/-- Elementwise `Json.beq` on arrays. -/
def Json.beqArr : List Json → List Json → Bool
  | [], [] => true
  | a :: as, b :: bs => Json.beq a b && Json.beqArr as bs
  | _, _ => false

/-- Fieldwise `Json.beq` on objects. -/
def Json.beqObj : List (String × Json) → List (String × Json) → Bool
  | [], [] => true
  | (ka, va) :: as, (kb, vb) :: bs => ka == kb && Json.beq va vb && Json.beqObj as bs
  | _, _ => false

end

/-- Python truthiness of a JSON value (`None`, `False`, `0`, `""`, `[]`, `\x7b\x7d`
are falsy). -/
def Json.truthy : Json → Bool
  | .null => false
  | .bool b => b
  | .num n => n != 0
  | .str s => !s.isEmpty
  | .arr l => !l.isEmpty
  | .obj f => !f.isEmpty

/-- Python truthiness of a possibly-`None` value (`none` models Python `None`). -/
def optTruthy : Option Json → Bool
  | none => false
  | some j => j.truthy

/-- `dict.get k`: the last binding for `k` in the association list (a dict
built from JSON keeps the last duplicate key), `none` when absent. -/
def getKey (k : String) : List (String × Json) → Option Json
  | [] => none
  | (k', v) :: rest =>
    match getKey k rest with
    | some v' => some v'
    | none => if k' == k then some v else none

/-- Python `a or b` on possibly-`None` values: `a` when truthy, else `b`. -/
def pyOr (a b : Option Json) : Option Json :=
  if optTruthy a then a else b

/-- Python `==` on possibly-`None` values (`None == None` is `True`,
`None == v` is `False` for any JSON value `v`). -/
def optEq : Option Json → Option Json → Bool
  | none, none => true
  | some a, some b => Json.beq a b
  | _, _ => false

/-! ## Python string primitives (on `List Char`) -/

/-- Python `str` whitespace (ASCII): space, `\t`, `\n`, `\v`, `\f`, `\r`.
This is also the character class of `\s` in the `re` module (ASCII part). -/
def pyIsSpace (c : Char) : Bool :=
  (9 ≤ c.toNat && c.toNat ≤ 13) || c.toNat == 32

/-- Python `str.strip()`: drop whitespace from both ends. -/
def pyStrip (s : List Char) : List Char :=
  ((s.dropWhile pyIsSpace).reverse.dropWhile pyIsSpace).reverse

/-- Characterwise ASCII uppercasing, modelling Python `str.upper` on the
ASCII inputs the code deals with. -/
def pyToUpper (c : Char) : Char :=
  if 97 ≤ c.toNat ∧ c.toNat ≤ 122 then Char.ofNat (c.toNat - 32) else c

/-- Characterwise ASCII lowercasing, modelling Python `str.lower`. -/
def pyToLower (c : Char) : Char :=
  if 65 ≤ c.toNat ∧ c.toNat ≤ 90 then Char.ofNat (c.toNat + 32) else c

/-- Python `str.find`: index of the first occurrence of `pat` in `s`
(`none` models the `-1` result). -/
def firstOcc (pat : List Char) : List Char → Option Nat
  | [] => if pat.isEmpty then some 0 else none
  | c :: rest =>
    if pat.isPrefixOf (c :: rest) then some 0
    else (firstOcc pat rest).map (· + 1)

/-- Python `pat in s` substring containment. -/
def containsSub (pat s : List Char) : Bool :=
  (firstOcc pat s).isSome

/-! ## `json.loads`

A recursive-descent parser for JSON, modelling `json.loads`.  Numbers are
integers (a fractional or exponent part is a parse failure in the model; the
verified claims never involve non-integral numbers).  The parser is fuelled;
`pyLoads` supplies fuel larger than the nesting depth of any input, so fuel
exhaustion is unreachable. -/

/-- JSON interelement whitespace: space, `\t`, `\n`, `\r`. -/
def jsonWsChar (c : Char) : Bool :=
  c == ' ' || c == '\t' || c == '\n' || c == '\r'

/-- Skip JSON whitespace. -/
def skipWs (s : List Char) : List Char :=
  s.dropWhile jsonWsChar

/-- Hexadecimal digit value. -/
def hexVal (c : Char) : Option Nat :=
  if '0' ≤ c ∧ c ≤ '9' then some (c.toNat - 48)
  else if 'a' ≤ c ∧ c ≤ 'f' then some (c.toNat - 87)
  else if 'A' ≤ c ∧ c ≤ 'F' then some (c.toNat - 55)
  else none

/-- Body of a JSON string after the opening quote: returns the decoded
characters and the input after the closing quote. -/
def parseStringBody : Nat → List Char → Except Unit (List Char × List Char)
  | 0, _ => .error ()
  | fuel + 1, s =>
    match s with
    | [] => .error ()
    | '"' :: rest => .ok ([], rest)
    | '\\' :: e :: rest =>
      match e with
      | '"' => do let (cs, r) ← parseStringBody fuel rest; .ok ('"' :: cs, r)
      | '\\' => do let (cs, r) ← parseStringBody fuel rest; .ok ('\\' :: cs, r)
      | '/' => do let (cs, r) ← parseStringBody fuel rest; .ok ('/' :: cs, r)
      | 'b' => do let (cs, r) ← parseStringBody fuel rest; .ok ('\x08' :: cs, r)
      | 'f' => do let (cs, r) ← parseStringBody fuel rest; .ok ('\x0c' :: cs, r)
      | 'n' => do let (cs, r) ← parseStringBody fuel rest; .ok ('\n' :: cs, r)
      | 'r' => do let (cs, r) ← parseStringBody fuel rest; .ok ('\r' :: cs, r)
      | 't' => do let (cs, r) ← parseStringBody fuel rest; .ok ('\t' :: cs, r)
      | 'u' =>
        match rest with
        | h1 :: h2 :: h3 :: h4 :: rest' =>
          match hexVal h1, hexVal h2, hexVal h3, hexVal h4 with
          | some a, some b, some c, some d => do
            let (cs, r) ← parseStringBody fuel rest'
            .ok (Char.ofNat (((a * 16 + b) * 16 + c) * 16 + d) :: cs, r)
          | _, _, _, _ => .error ()
        | _ => .error ()
      | _ => .error ()
    | c :: rest =>
      if c.toNat < 32 then .error ()
      else do let (cs, r) ← parseStringBody fuel rest; .ok (c :: cs, r)

/-- Digits of a decimal literal to a natural number. -/
def digitsToNat (ds : List Char) : Nat :=
  ds.foldl (fun acc c => acc * 10 + (c.toNat - 48)) 0

/-- A JSON integer literal (sign already consumed); a fractional or exponent
part is rejected (numbers are modelled as integers). -/
def parseIntLit (neg : Bool) (s : List Char) : Except Unit (Json × List Char) :=
  let ds := s.takeWhile (·.isDigit)
  let rest := s.dropWhile (·.isDigit)
  if ds.isEmpty then .error ()
  else if ds.length > 1 && ds.headD ' ' == '0' then .error ()
  else
    match rest with
    | '.' :: _ => .error ()
    | 'e' :: _ => .error ()
    | 'E' :: _ => .error ()
    | _ =>
      let n : Int := Int.ofNat (digitsToNat ds)
      .ok (.num (if neg then -n else n), rest)

mutual

/-- One JSON value, leading whitespace allowed. -/
def parseVal : Nat → List Char → Except Unit (Json × List Char)
  | 0, _ => .error ()
  | fuel + 1, s =>
    match skipWs s with
    | 'n' :: 'u' :: 'l' :: 'l' :: rest => .ok (.null, rest)
    | 't' :: 'r' :: 'u' :: 'e' :: rest => .ok (.bool true, rest)
    | 'f' :: 'a' :: 'l' :: 's' :: 'e' :: rest => .ok (.bool false, rest)
    | '"' :: rest => do
      let (cs, r) ← parseStringBody (fuel + 1) rest
      .ok (.str (String.mk cs), r)
    | '[' :: rest =>
      (match skipWs rest with
       | ']' :: r => .ok (.arr [], r)
       | _ => do
         let (items, r) ← parseArrItems fuel rest
         .ok (.arr items, r))
    | '{' :: rest =>
      (match skipWs rest with
       | '}' :: r => .ok (.obj [], r)
       | _ => do
         let (fields, r) ← parseObjItems fuel rest
         .ok (.obj fields, r))
    | '-' :: rest => parseIntLit true rest
    | c :: rest =>
      if c.isDigit then parseIntLit false (c :: rest) else .error ()
    | [] => .error ()

/-- Comma-separated array items up to the closing `]`. -/
def parseArrItems : Nat → List Char → Except Unit (List Json × List Char)
  | 0, _ => .error ()
  | fuel + 1, s => do
    let (v, rest) ← parseVal fuel s
    match skipWs rest with
    | ',' :: rest' => do
      let (vs, r) ← parseArrItems fuel rest'
      .ok (v :: vs, r)
    | ']' :: rest' => .ok ([v], rest')
    | _ => .error ()

/-- Comma-separated `"key": value` fields up to the closing `\x7d`. -/
def parseObjItems : Nat → List Char → Except Unit (List (String × Json) × List Char)
  | 0, _ => .error ()
  | fuel + 1, s =>
    match skipWs s with
    | '"' :: rest => do
      let (k, rest1) ← parseStringBody (fuel + 1) rest
      match skipWs rest1 with
      | ':' :: rest2 => do
        let (v, rest3) ← parseVal fuel rest2
        match skipWs rest3 with
        | ',' :: rest4 => do
          let (fs, r) ← parseObjItems fuel rest4
          .ok ((String.mk k, v) :: fs, r)
        | '}' :: rest4 => .ok ([(String.mk k, v)], rest4)
        | _ => .error ()
      | _ => .error ()
    | _ => .error ()

end

/-- `json.loads`: parse a complete JSON document; trailing non-whitespace is
a `JSONDecodeError` (modelled as `Except.error`). -/
def pyLoads (s : List Char) : Except Unit Json :=
  match parseVal (2 * s.length + 4) s with
  | .ok (v, rest) => if (skipWs rest).isEmpty then .ok v else .error ()
  | .error _ => .error ()

/-! ## `_extract_braced_content` and `_extract_json_before_approve` -/

/-- Characterwise `str.upper`. -/
def pyUpper (s : List Char) : List Char :=
  s.map pyToUpper

/-- The bracket-matching loop of `_extract_braced_content`: scans `rest`
(the input after its first character) with the given open/close characters
and `stack = 1`; returns how many characters it consumed and whether the
stack reached `0`. -/
def bracedLoop (startC endC : Char) : List Char → Nat → Nat × Bool
  | [], _ => (0, false)
  | c :: rest, stack =>
    let stack' := if c = startC then stack + 1 else if c = endC then stack - 1 else stack
    if stack' = 0 then (1, true)
    else
      let (n, closed) := bracedLoop startC endC rest stack'
      (n + 1, closed)

/-- `_extract_braced_content`: content between the first `[`/`\x7b` and its
matching close bracket; the whole string when the input does not start with a
bracket or the brackets never balance. -/
def extract_braced_content (s : List Char) : List Char :=
  match s with
  | [] => []
  | c :: rest =>
    if c = '{' ∨ c = '[' then
      let endC := if c = '{' then '}' else ']'
      let (n, closed) := bracedLoop c endC rest 1
      if closed then s.take (n + 1) else s
    else s

/-- The `re.search` over a raw triple-backtick json pattern in
`_extract_json_before_approve`: the text between the first occurrence of
the 7-character opener and the next triple backtick, whitespace-stripped
(the leftmost-match/lazy-group semantics of the pattern reduce to exactly
this); `none` when the pattern does not match. -/
def backticksJson (pc : List Char) : Option (List Char) :=
  match firstOcc "```json".data pc with
  | none => none
  | some i =>
    let after := pc.drop (i + 7)
    match firstOcc "```".data after with
    | none => none
    | some p => some (pyStrip (after.take p))

/-- The fallback chain of `_extract_json_before_approve` applied to
`parse_content` (the text already truncated at the approval token):
1. a triple-backtick json block, if present (a parse failure inside it
   returns `None` without falling through);
2. the whole content as JSON, accepted only when it is a list or dict;
3. the substring from the first `[` (or, failing that, the first `\x7b`),
   bracket-balanced, as JSON;
4. otherwise `None`.
`Except.error` would mark an uncaught Python exception; every stage catches
its `JSONDecodeError`/`ValueError`.  `lastResortStage` is the third stage;
`extractStages` chains all of them. -/
def lastResortStage (pc : List Char) : Except Unit (Option Json) :=
  let startIdx :=
    match firstOcc "[".data pc with
    | some i => some i
    | none => firstOcc "\x7b".data pc
  match startIdx with
  | none => .ok none
  | some i =>
    match pyLoads (extract_braced_content (pc.drop i)) with
    | .ok v => .ok (some v)
    | .error _ => .ok none

def extractStages (pc : List Char) : Except Unit (Option Json) :=
  match backticksJson pc with
  | some jstr =>
    (match pyLoads jstr with
     | .ok v => .ok (some v)
     | .error _ => .ok none)
  | none =>
    match pyLoads pc with
    | .ok (.arr l) => .ok (some (.arr l))
    | .ok (.obj f) => .ok (some (.obj f))
    | _ => lastResortStage pc

/-- The `for approve_variant in [...]` loop of `_extract_json_before_approve`:
the least `find` result over the three variants searched in the uppercased
output (`none` models `-1`). -/
def approveIndexCode (output : List Char) : Option Nat :=
  let u := pyUpper output
  ["APPROVE".data, "approve".data, "Approve".data].foldl
    (fun acc pat =>
      match firstOcc pat u with
      | none => acc
      | some idx =>
        match acc with
        | none => some idx
        | some a => if idx < a then some idx else acc)
    none

/-- `_extract_json_before_approve`: `None` on whitespace-only output, else
truncate at the approval token, strip, and run the fallback chain. -/
def extract_json_before_approve (output : List Char) : Except Unit (Option Json) :=
  if (pyStrip output).isEmpty then .ok none
  else
    let parseContent :=
      match approveIndexCode output with
      | some i => pyStrip (output.take i)
      | none => output
    extractStages parseContent

/-- Spec-side: index of the first case-insensitive occurrence of the literal
`APPROVE` in the transcript. -/
def specApproveIdx (t : List Char) : Option Nat :=
  firstOcc "APPROVE".data (pyUpper t)

/-- Spec-side: the transcript truncated to the text strictly before the first
case-insensitive `APPROVE` (whitespace-stripped, as the code strips the
truncation); the whole transcript when no approval token occurs. -/
def specTruncate (t : List Char) : List Char :=
  match specApproveIdx t with
  | some i => pyStrip (t.take i)
  | none => t

/-- The extractor applied to an already-truncated transcript: the guard and
fallback chain of `extract_json_before_approve` with no further truncation. -/
def extractCore (u : List Char) : Except Unit (Option Json) :=
  if (pyStrip u).isEmpty then .ok none else extractStages u

/-! ## `run_with_backoff`

The retry loop of `run_with_backoff`, abstracted over the collaborator:
`outcomes n` is what the `pair.run_stream` consumption raises or returns on
attempt `n` (`Except.error` models `RateLimitError`).  The loop mirrors
`for attempt in range(max_retries)`: on success it breaks; on a rate-limit
error it sleeps `2^attempt` seconds and retries unless this was the last
attempt, in which case it re-raises.  Sleeps are collected in order. -/

/-- The loop body; `remaining` is how many iterations `range(max_retries)`
still has (structural fuel), `attempt` the current index. -/
def backoffGo (outcomes : Nat → Except Unit α) (maxRetries : Nat) :
    Nat → Nat → List Nat → Except Unit (Option α) × List Nat
  | _, 0, sleeps => (.ok none, sleeps)
  | attempt, rem + 1, sleeps =>
    match outcomes attempt with
    | .ok a => (.ok (some a), sleeps)
    | .error _ =>
      if attempt < maxRetries - 1 then
        backoffGo outcomes maxRetries (attempt + 1) rem (sleeps ++ [2 ^ attempt])
      else (.error (), sleeps)

/-- `run_with_backoff`: result (`ok (some a)` on success, `ok none` when the
loop runs zero iterations, `error` when the last attempt re-raises) paired
with the list of sleep durations. -/
def run_with_backoff (outcomes : Nat → Except Unit α) (maxRetries : Nat) :
    Except Unit (Option α) × List Nat :=
  backoffGo outcomes maxRetries 0 maxRetries []

/-! ## `update_json_list` (the JSON List Store upsert)

The stored file is `Option Json`: `none` is a missing file, a present file
holds its parsed content (on-disk corruption, which the code treats as an
empty list with a warning, is subsumed by `none`). -/

/-- Outcome tag of one `update_json_list` call. -/
inductive UpdateTag where
  /-- the merged list was written back -/
  | written : UpdateTag
  /-- entry neither a dict nor a single-item list: logged error, no write -/
  | skippedShape : UpdateTag
  /-- entry lacks a truthy `registration_id`/`RegistrationNumber`: logged
  error, no write -/
  | skippedNoKey : UpdateTag
  /-- uncaught `AttributeError` (`.get` on a non-dict) -/
  | attrError : UpdateTag
deriving Repr, DecidableEq

/-- The entry normalisation at the top of `update_json_list`: a single-item
list is unwrapped to its element; a dict passes through; anything else is
rejected (`none` = logged error and early return). -/
def unwrapEntry : Json → Option Json
  | .arr [x] => some x
  | .obj f => some (.obj f)
  | _ => none

/-- `entry.get(k)` — `AttributeError` when `entry` is not a dict. -/
def entryGet (k : String) : Json → Except Unit (Option Json)
  | .obj f => .ok (getKey k f)
  | _ => .error ()

/-- `entry.get(key) or entry.get("RegistrationNumber")`. -/
def entryKey (k : String) (e : Json) : Except Unit (Option Json) :=
  match entryGet k e with
  | .error err => .error err
  | .ok a => if optTruthy a then .ok a else entryGet "RegistrationNumber" e

/-- Reading the stored file: a missing file or non-list content is an empty
list (the code logs a warning and overwrites). -/
def loadStored : Option Json → List Json
  | some (.arr l) => l
  | some _ => []
  | none => []

/-- The scan loop of `update_json_list`: replace the first entry whose
logical key equals `newId` (returning `some` of the updated list), or report
`none` when no entry matched; `.error` is an `AttributeError` raised by an
entry without `.get`. -/
def upsertScan (k : String) (newId : Option Json) (r : Json) :
    List Json → Except Unit (Option (List Json))
  | [] => .ok none
  | e :: rest =>
    match entryKey k e with
    | .error err => .error err
    | .ok eid =>
      if optEq eid newId then .ok (some (r :: rest))
      else
        match upsertScan k newId r rest with
        | .error err => .error err
        | .ok (some rest') => .ok (some (e :: rest'))
        | .ok none => .ok none

/-- `update_json_list`: normalise the entry, read the stored list, compute
the logical key, replace-or-append, write back.  Returns the outcome tag and
the file content after the call (unchanged unless `written`). -/
def update_json_list (k : String) (file : Option Json) (newEntry : Json) :
    UpdateTag × Option Json :=
  match unwrapEntry newEntry with
  | none => (.skippedShape, file)
  | some entry =>
    let stored := loadStored file
    match entryKey k entry with
    | .error _ => (.attrError, file)
    | .ok newId =>
      if optTruthy newId = false then (.skippedNoKey, file)
      else
        match upsertScan k newId entry stored with
        | .error _ => (.attrError, file)
        | .ok (some l') => (.written, some (.arr l'))
        | .ok none => (.written, some (.arr (stored ++ [entry])))

/-- The file content after an `update_json_list` call. -/
def upsertFile (k : String) (file : Option Json) (newEntry : Json) : Option Json :=
  (update_json_list k file newEntry).2

/-- The shape condition rejected by `update_json_list`: a list whose length
is not 1, or neither a dict nor a list. -/
def badShape : Json → Bool
  | .arr l => l.length != 1
  | .obj _ => false
  | _ => true

/-- The only entry shapes `update_json_list` can persist: a dict, or a
single-element list holding one dict. -/
def isDictOrSingletonDict : Json → Bool
  | .obj _ => true
  | .arr [.obj _] => true
  | _ => false

/-! ## `BatchWriter.flush` -/

/-- The per-file loop body of `BatchWriter.flush`: with no pending records
the file is skipped (`continue`); otherwise the existing list is read
(missing/blank/non-list content → `[]`), the pending batch is appended
(`existing_data.extend(pending_data)` — a plain extend), the result written
back, and the buffer for the file cleared.  Returns the file content after
the call and the new buffer. -/
def flushFile (file : Option Json) (pending : List Json) : Option Json × List Json :=
  if pending.isEmpty then (file, pending)
  else (some (.arr (loadStored file ++ pending)), [])

/-! ## The capacity allocator

`update_supplier_capacity` (`capacity_tracker.py`) and
`Workflow._update_capacity` (`workflow.py`) share the same core, embedded
here: one record per supplier (keyed by the `SupplierID` value), `Used`
incremented by one for the supplier of the last match, with the
fail-if-exceeded check before any mutation.  `Capacity`/`Used` are integers,
`UsedPct` an exact rational (the Python float arithmetic abstracted to ℚ,
with `round(x, 2)` as round-half-even to two decimals). -/

/-- One supplier's capacity record: `Capacity`, `Used`, `UsedPct`. -/
structure SupplierCap where
  capacity : Int
  used : Int
  usedPct : ℚ
deriving Repr, DecidableEq

/-- The capacity map: `SupplierID` value → record (Python dict). -/
abbrev CapState := List (Json × SupplierCap)

/-- The errors `update_supplier_capacity` raises (all `ValueError`s in the
code, distinguished here by their messages; `indexError` is the uncaught
`match_data[-1]` on an empty list). -/
inductive CapErr where
  | invalidMatchData : CapErr
  | indexError : CapErr
  | missingSupplierId : CapErr
  | supplierNotFound : CapErr
  | capacityExceeded : Json → Int → Int → CapErr
deriving Repr

/-- Dict lookup by Python `==` on the `SupplierID` key. -/
def capLookup (id : Json) : CapState → Option SupplierCap
  | [] => none
  | (k, v) :: rest => if Json.beq k id then some v else capLookup id rest

/-- In-place update of the record under `id` (other suppliers untouched). -/
def capUpdate (id : Json) (newRec : SupplierCap) : CapState → CapState
  | [] => []
  | (k, v) :: rest =>
    if Json.beq k id then (k, newRec) :: rest else (k, v) :: capUpdate id newRec rest

/-- `Json.isObj`: `isinstance(d, dict)`. -/
def Json.isObj : Json → Bool
  | .obj _ => true
  | _ => false

/-- Python `round` (half-to-even) of a rational to an integer. -/
def pyRoundHalfEven (q : ℚ) : ℤ :=
  let f := ⌊q⌋
  let r := q - f
  if r < 1/2 then f
  else if 1/2 < r then f + 1
  else if f % 2 = 0 then f else f + 1

/-- `round(q, 2)`. -/
def pyRound2 (q : ℚ) : ℚ :=
  (pyRoundHalfEven (q * 100) : ℚ) / 100

/-- `match.get("supplier_id") or match.get("SupplierID")` on the last match
of the list (`match_data[-1]`): the supplier the increment targets. -/
def matchSupplierId (matchData : List Json) : Option Json :=
  match matchData.getLast? with
  | some (.obj f) => pyOr (getKey "supplier_id" f) (getKey "SupplierID" f)
  | _ => none

/-- The increment core shared by `update_supplier_capacity` and
`Workflow._update_capacity`: validate the match list, find the supplier of
the last match, and increment `Used` by one unless that would exceed
`Capacity`; `UsedPct` is recomputed as `round(new_used/capacity, 2)`
(`0` when `capacity` is not positive).  All checks precede every mutation. -/
def update_supplier_capacity (s : CapState) (matchData : List Json) :
    Except CapErr CapState :=
  if !(matchData.all Json.isObj) then .error .invalidMatchData
  else
    match matchData.getLast? with
    | none => .error .indexError
    | some _ =>
      match matchSupplierId matchData with
      | none => .error .missingSupplierId
      | some sid =>
        if sid.truthy = false then .error .missingSupplierId
        else
          match capLookup sid s with
          | none => .error .supplierNotFound
          | some rec =>
            let newUsed := rec.used + 1
            if newUsed > rec.capacity then
              .error (.capacityExceeded sid newUsed rec.capacity)
            else
              .ok (capUpdate sid
                { capacity := rec.capacity, used := newUsed,
                  usedPct :=
                    if rec.capacity > 0 then
                      pyRound2 ((newUsed : ℚ) / (rec.capacity : ℚ))
                    else 0 } s)

/-- One call as the file sees it: the state is rewritten only on success
(on any raise the persisted map is untouched). -/
def capStep (s : CapState) (matchData : List Json) : CapState × Option CapErr :=
  match update_supplier_capacity s matchData with
  | .ok s' => (s', none)
  | .error e => (s, some e)

/-- A sequence of increments: the trace of (match, state after, error). -/
def capRun (s : CapState) : List (List Json) → List (List Json × CapState × Option CapErr)
  | [] => []
  | m :: ms =>
    let r := capStep s m
    (m, r.1, r.2) :: capRun r.1 ms

/-! ## `process_pair`

The message-processing loop of `process_pair`, folded over the stream the
session produced.  The retry wrapper and token truncation are orthogonal to
the success logic and are modelled separately (`run_with_backoff`).
`Except.error` models an uncaught Python exception (`KeyError`/`TypeError`)
escaping `process_pair`. -/

/-- One streamed message: a structured agent message, a text message, or the
terminal `TaskResult`. -/
inductive Msg where
  | structured (source : String) (data : Json) : Msg
  | text (source : String) (content : String) : Msg
  | taskResult (stopReason : Option String) : Msg

/-- The loop state of `process_pair` (accumulated matcher transcripts,
extracted outputs, and the `success` flag; `jsonOutputs` is the group-mode
dict, `none` in non-group mode where Python holds `None`). -/
structure PairState where
  success : Bool
  matcherOutput : List Char
  matcher1Output : List Char
  matcher2Output : List Char
  jsonOutput : Option Json
  jsonOutputs : Option (List (String × Option Json))

/-- Dict assignment `d[k] = v` (replace the binding, append when new). -/
def dictSet (k : String) (v : Option Json) :
    List (String × Option Json) → List (String × Option Json)
  | [] => [(k, v)]
  | (k', v') :: rest =>
    if k' == k then (k, v) :: rest else (k', v') :: dictSet k v rest

/-- Dict subscript `d[k]` — `KeyError` when absent. -/
def dictGet (k : String) : List (String × Option Json) → Except Unit (Option Json)
  | [] => .error ()
  | (k', v) :: rest => if k' == k then .ok v else dictGet k rest

/-- Characterwise `str.lower` applied to a whole string. -/
def pyLower (s : List Char) : List Char :=
  s.map pyToLower

/-- One iteration of the `async for msg in run_with_backoff(...)` body. -/
def stepMsg (isGroup : Bool) (st : PairState) (m : Msg) : Except Unit PairState :=
  match m with
  | .structured src data =>
    if containsSub "matcher".data (pyLower src.data) then
      if isGroup && containsSub "matcher1".data (pyLower src.data) then
        match st.jsonOutputs with
        | none => .error ()
        | some d => do
          let d' := dictSet "matches" (some data) d
          let v ← dictGet "matches" d'
          .ok { st with jsonOutputs := some d', success := v.isSome }
      else if isGroup && containsSub "matcher2".data (pyLower src.data) then
        match st.jsonOutputs with
        | none => .error ()
        | some d => do
          let d' := dictSet "pos" (some data) d
          let v ← dictGet "pos" d'
          .ok { st with jsonOutputs := some d',
                        success := if v.isSome then true else st.success }
      else
        .ok { st with jsonOutput := some data,
                      success := if (some data : Option Json).isSome then true else st.success }
    else .ok st
  | .text src content =>
    if src == "user" then .ok st
    else if containsSub "matcher".data (pyLower src.data) then
      if isGroup && containsSub "matcher1".data (pyLower src.data) then
        match st.jsonOutputs with
        | none => .error ()
        | some d => do
          let out' := st.matcher1Output ++ content.data
          let j ← extract_json_before_approve out'
          .ok { st with matcher1Output := out', jsonOutputs := some (dictSet "matches" j d) }
      else if isGroup && containsSub "matcher2".data (pyLower src.data) then
        match st.jsonOutputs with
        | none => .error ()
        | some d => do
          let out' := st.matcher2Output ++ content.data
          let j ← extract_json_before_approve out'
          let d' := dictSet "pos" j d
          let v ← dictGet "pos" d'
          .ok { st with matcher2Output := out', jsonOutputs := some d',
                        success := if v.isSome then true else st.success }
      else do
        let out' := st.matcherOutput ++ content.data
        let j ← extract_json_before_approve out'
        .ok { st with matcherOutput := out', jsonOutput := j,
                      success := if j.isSome then true else st.success }
    else if containsSub "critic".data (pyLower src.data) then
      if containsSub "APPROVE".data (pyUpper content.data) then
        if !isGroup then .ok { st with success := true }
        else
          match st.jsonOutputs with
          | none => .error ()
          | some d => do
            let a ← dictGet "matches" d
            let b ← dictGet "pos" d
            .ok { st with success := optTruthy a && optTruthy b }
      else .ok st
    else .ok st
  | .taskResult stopReason =>
    match stopReason with
    | none => .ok st
    | some r =>
      if containsSub "APPROVE".data (pyUpper r.data) then
        if !isGroup then .ok { st with success := true }
        else
          match st.jsonOutputs with
          | none => .error ()
          | some d => do
            let a ← dictGet "1" d
            let b ← dictGet "pos" d
            .ok { st with success := optTruthy a && optTruthy b }
      else .ok st

/-- The result `process_pair` returns. -/
structure ProcResult where
  success : Bool
  jsonOutput : Option Json
  jsonOutputs : Option (List (String × Option Json))

/-- `process_pair`: fold the message loop from the initial state, then apply
the final success checks (group mode requires both `matches` and `pos`
truthy; single mode requires a truthy `json_output`). -/
def process_pair (pairName : String) (msgs : List Msg) : Except Unit ProcResult := do
  let isGroup := containsSub "Matcher1-Critic-Matcher2".data pairName.data
  let init : PairState :=
    { success := false, matcherOutput := [], matcher1Output := [],
      matcher2Output := [], jsonOutput := none,
      jsonOutputs := if isGroup then some [("matches", none), ("pos", none)] else none }
  let fin ← msgs.foldlM (stepMsg isGroup) init
  if fin.success = false then .ok ⟨false, none, none⟩
  else if isGroup then
    match fin.jsonOutputs with
    | none => .error ()
    | some d => do
      let a ← dictGet "matches" d
      let b ← dictGet "pos" d
      if optTruthy a = false then .ok ⟨false, none, none⟩
      else if optTruthy b = false then .ok ⟨false, none, none⟩
      else .ok ⟨true, none, some d⟩
  else
    if optTruthy fin.jsonOutput = false then .ok ⟨false, none, none⟩
    else .ok ⟨true, fin.jsonOutput, none⟩

/-! # Theorems

All definitions end here; everything below is proof. -/

mutual

theorem Json.beq_refl : (j : Json) → Json.beq j j = true
  | .null => rfl
  | .bool b => by simp [Json.beq]
  | .num n => by simp [Json.beq]
  | .str s => by simp [Json.beq]
  | .arr l => by simpa [Json.beq] using Json.beqArr_refl l
  | .obj f => by simpa [Json.beq] using Json.beqObj_refl f

theorem Json.beqArr_refl : (l : List Json) → Json.beqArr l l = true
  | [] => rfl
  | a :: as => by simp [Json.beqArr, Json.beq_refl a, Json.beqArr_refl as]

theorem Json.beqObj_refl : (f : List (String × Json)) → Json.beqObj f f = true
  | [] => rfl
  | (k, v) :: fs => by simp [Json.beqObj, Json.beq_refl v, Json.beqObj_refl fs]

end

example : pyLoads "[\x7b\"a\":1\x7d]".data =
    .ok (.arr [.obj [("a", .num 1)]]) := rfl

example : (pyLoads "not json at all".data).isOk = false := by decide

example : pyLoads " \x7b\"k\": [1, -2, true, null, \"s\"]\x7d ".data =
    .ok (.obj [("k", .arr [.num 1, .num (-2), .bool true, .null, .str "s"])]) := rfl

example : extract_json_before_approve "[\x7b\"a\":1\x7d]\nAPPROVE\n[\x7b\"a\":2\x7d]".data =
    .ok (some (.arr [.obj [("a", .num 1)]])) := rfl

example : extract_json_before_approve "not json at all".data = .ok none := rfl

/-! ## Lemmas about the string primitives -/

theorem char_toNat_ofNat_valid {n : Nat} (h : n.isValidChar) :
    (Char.ofNat n).toNat = n := by
  simp only [Char.ofNat, dif_pos h, Char.ofNatAux, Char.toNat, UInt32.toNat]
  simp

/-- ASCII uppercasing never yields a lowercase ASCII letter. -/
theorem pyToUpper_not_lower (c : Char) :
    ¬(97 ≤ (pyToUpper c).toNat ∧ (pyToUpper c).toNat ≤ 122) := by
  unfold pyToUpper
  split
  · next h =>
    have hv : (c.toNat - 32).isValidChar := by
      constructor
      omega
    rw [char_toNat_ofNat_valid hv]
    omega
  · next h => exact h

theorem firstOcc_eq_some {pat s : List Char} {i : Nat} :
    firstOcc pat s = some i → pat.isPrefixOf (s.drop i) = true := by
  induction s generalizing i with
  | nil =>
    intro h
    unfold firstOcc at h
    split at h
    · next he =>
      cases h
      rw [List.isEmpty_iff.mp he]
      rfl
    · cases h
  | cons c rest ih =>
    intro h
    unfold firstOcc at h
    split at h
    · next hp => cases h; simpa using hp
    · next hp =>
      rcases Option.map_eq_some'.mp h with ⟨j, hj, rfl⟩
      simpa using ih hj

/-- A pattern containing a lowercase ASCII letter never occurs in an
uppercased string. -/
theorem firstOcc_pyUpper_lower_none (pat : List Char) (k : Nat) (hk : k < pat.length)
    (hlow : 97 ≤ (pat.getD k ' ').toNat ∧ (pat.getD k ' ').toNat ≤ 122)
    (t : List Char) : firstOcc pat (pyUpper t) = none := by
  cases hocc : firstOcc pat (pyUpper t) with
  | none => rfl
  | some i =>
    exfalso
    have hp : pat <+: (pyUpper t).drop i :=
      List.isPrefixOf_iff_prefix.mp (firstOcc_eq_some hocc)
    have hdrop : (pyUpper t).drop i = pyUpper (t.drop i) := by
      simp [pyUpper, List.map_drop]
    rw [hdrop] at hp
    have hk2 : k < (pyUpper (t.drop i)).length := lt_of_lt_of_le hk hp.length_le
    have hk3 : k < (t.drop i).length := by simpa [pyUpper] using hk2
    have hget : (pyUpper (t.drop i)).get ⟨k, hk2⟩ = pat.get ⟨k, hk⟩ := by
      simpa [List.get_eq_getElem] using (hp.getElem hk).symm
    have hmap : (pyUpper (t.drop i)).get ⟨k, hk2⟩ = pyToUpper ((t.drop i).get ⟨k, hk3⟩) := by
      simp [pyUpper, List.get_eq_getElem]
    have hD : pat.getD k ' ' = pat.get ⟨k, hk⟩ := by
      simp [List.getD_eq_getElem, List.get_eq_getElem, hk]
    apply pyToUpper_not_lower ((t.drop i).get ⟨k, hk3⟩)
    rw [hmap.symm, hget, ← hD]
    exact hlow

/-- The three-variant loop in the code computes exactly the first
case-insensitive occurrence of `APPROVE`. -/
theorem approveIndexCode_eq_spec (t : List Char) :
    approveIndexCode t = specApproveIdx t := by
  have h1 : firstOcc "approve".data (pyUpper t) = none :=
    firstOcc_pyUpper_lower_none _ 0 (by decide) (by decide) t
  have h2 : firstOcc "Approve".data (pyUpper t) = none :=
    firstOcc_pyUpper_lower_none _ 1 (by decide) (by decide) t
  unfold approveIndexCode specApproveIdx
  simp only [List.foldl_cons, List.foldl_nil]
  rw [h1, h2]
  cases firstOcc "APPROVE".data (pyUpper t) <;> rfl

/-- A stripped-empty string is all whitespace. -/
theorem pyStrip_eq_nil {s : List Char} (h : pyStrip s = []) :
    ∀ c ∈ s, pyIsSpace c = true := by
  unfold pyStrip at h
  rw [List.reverse_eq_nil_iff, List.dropWhile_eq_nil_iff] at h
  intro c hc
  rw [← List.takeWhile_append_dropWhile (p := pyIsSpace) (l := s)] at hc
  rcases List.mem_append.mp hc with h1 | h2
  · exact List.mem_takeWhile_imp h1
  · exact h c (List.mem_reverse.mpr h2)

theorem isEmpty_false_of_ne {α : Type} {l : List α} (h : l ≠ []) : l.isEmpty = false := by
  cases l with
  | nil => exact absurd rfl h
  | cons a as => rfl

theorem dropWhile_head_false {p : Char → Bool} : ∀ {l : List Char} {c : Char}
    {cs : List Char}, List.dropWhile p l = c :: cs → p c = false := by
  intro l
  induction l with
  | nil => intro c cs h; cases h
  | cons a as ih =>
    intro c cs h
    rw [List.dropWhile_cons] at h
    split at h
    · exact ih h
    · next hpa =>
      cases h
      simpa using hpa

/-- Stripping an already-stripped nonempty string cannot give the empty
string. -/
theorem pyStrip_strip_nil {x : List Char} (h : pyStrip (pyStrip x) = []) :
    pyStrip x = [] := by
  cases hx : pyStrip x with
  | nil => rfl
  | cons c cs =>
    exfalso
    have hall := pyStrip_eq_nil (hx ▸ h)
    have hb : (List.dropWhile pyIsSpace (List.dropWhile pyIsSpace x).reverse).reverse
        = c :: cs := hx
    have hbne : List.dropWhile pyIsSpace (List.dropWhile pyIsSpace x).reverse ≠ [] := by
      intro h0
      rw [h0] at hb
      cases hb
    obtain ⟨d, ds, hd⟩ := List.exists_cons_of_ne_nil hbne
    have hdf : pyIsSpace d = false := dropWhile_head_false hd
    have hdm : d ∈ c :: cs := by
      rw [← hb, List.mem_reverse, hd]
      exact List.mem_cons_self d ds
    have := hall d hdm
    rw [hdf] at this
    cases this

/-- A transcript containing a case-insensitive `APPROVE` is not
whitespace-only. -/
theorem pyStrip_ne_nil_of_specIdx {t : List Char} {i : Nat}
    (h : specApproveIdx t = some i) : pyStrip t ≠ [] := by
  intro hnil
  have hp : "APPROVE".data <+: (pyUpper t).drop i :=
    List.isPrefixOf_iff_prefix.mp (firstOcc_eq_some h)
  have hdrop : (pyUpper t).drop i = pyUpper (t.drop i) := by
    simp [pyUpper, List.map_drop]
  rw [hdrop] at hp
  have hk2 : 0 < (pyUpper (t.drop i)).length :=
    lt_of_lt_of_le (by decide) hp.length_le
  have hk3 : 0 < (t.drop i).length := by simpa [pyUpper] using hk2
  have hget : (pyUpper (t.drop i)).get ⟨0, hk2⟩ = 'A' := by
    simpa [List.get_eq_getElem] using (hp.getElem (by decide)).symm
  have hmap : (pyUpper (t.drop i)).get ⟨0, hk2⟩ = pyToUpper ((t.drop i).get ⟨0, hk3⟩) := by
    simp [pyUpper, List.get_eq_getElem]
  set e := (t.drop i).get ⟨0, hk3⟩ with he
  have hA : pyToUpper e = 'A' := by rw [← hmap, hget]
  have hmem : e ∈ t := List.mem_of_mem_drop (List.get_mem _ _ hk3)
  have hsp := pyStrip_eq_nil hnil e hmem
  unfold pyToUpper at hA
  by_cases hc : 97 ≤ e.toNat ∧ e.toNat ≤ 122
  · unfold pyIsSpace at hsp
    have hsp' : (9 ≤ e.toNat ∧ e.toNat ≤ 13) ∨ e.toNat = 32 := by simpa using hsp
    omega
  · rw [if_neg hc] at hA
    rw [hA] at hsp
    cases hsp

/-- The extractor considers exactly the (stripped) text strictly before the
first case-insensitive `APPROVE` — never anything at or after it. -/
theorem extract_eq_core_of_truncate (t : List Char) :
    extract_json_before_approve t = extractCore (specTruncate t) := by
  cases hidx : specApproveIdx t with
  | none =>
    simp only [extract_json_before_approve, extractCore, specTruncate,
      approveIndexCode_eq_spec, hidx]
  | some i =>
    have hne : pyStrip t ≠ [] := pyStrip_ne_nil_of_specIdx hidx
    have hguard : (pyStrip t).isEmpty = false := isEmpty_false_of_ne hne
    cases hstr : pyStrip (t.take i) with
    | nil =>
      simp only [extract_json_before_approve, extractCore, specTruncate,
        approveIndexCode_eq_spec, hidx, hguard, hstr]
      rfl
    | cons c cs =>
      have hne2 : (pyStrip (c :: cs)).isEmpty = false := by
        apply isEmpty_false_of_ne
        intro h0
        have h1 : pyStrip (pyStrip (t.take i)) = [] := by rw [hstr]; exact h0
        rw [pyStrip_strip_nil h1] at hstr
        cases hstr
      simp only [extract_json_before_approve, extractCore, specTruncate,
        approveIndexCode_eq_spec, hidx, hguard, hstr, hne2]

theorem lastResortStage_total (pc : List Char) : ∃ r, lastResortStage pc = .ok r := by
  unfold lastResortStage
  dsimp only
  split
  · exact ⟨_, rfl⟩
  · split
    · exact ⟨_, rfl⟩
    · exact ⟨_, rfl⟩

theorem extractStages_total (pc : List Char) : ∃ r, extractStages pc = .ok r := by
  unfold extractStages
  split
  · split
    · exact ⟨_, rfl⟩
    · exact ⟨_, rfl⟩
  · split
    · exact ⟨_, rfl⟩
    · exact ⟨_, rfl⟩
    · exact lastResortStage_total pc

/-- **C3** — Extraction stops at `APPROVE`: for every transcript, the output
extractor's result is a function of the (stripped) text strictly before the
first case-insensitive occurrence of the literal `APPROVE` (`specTruncate`);
in particular the transcript `[{"a":1}]\nAPPROVE\n[{"a":2}]` extracts to
`[{"a":1}]` and never to `[{"a":2}]`. -/
theorem C3_extraction_stops_at_approve :
    (∀ t : List Char, extract_json_before_approve t = extractCore (specTruncate t)) ∧
    extract_json_before_approve "[\x7b\"a\":1\x7d]\nAPPROVE\n[\x7b\"a\":2\x7d]".data =
      .ok (some (.arr [.obj [("a", .num 1)]])) ∧
    extract_json_before_approve "[\x7b\"a\":1\x7d]\nAPPROVE\n[\x7b\"a\":2\x7d]".data ≠
      .ok (some (.arr [.obj [("a", .num 2)]])) := by
  refine ⟨extract_eq_core_of_truncate, rfl, ?_⟩
  intro h
  rw [show extract_json_before_approve "[\x7b\"a\":1\x7d]\nAPPROVE\n[\x7b\"a\":2\x7d]".data =
      .ok (some (.arr [.obj [("a", .num 1)]])) from rfl] at h
  simp only [Except.ok.injEq, Option.some.injEq, Json.arr.injEq, List.cons.injEq,
    Json.obj.injEq, Prod.mk.injEq, Json.num.injEq, and_true, true_and] at h
  omega

theorem C3_extraction_stops_at_approve_witness :
    extract_json_before_approve "xAPPROVEy".data =
      extractCore (specTruncate "xAPPROVEy".data) :=
  C3_extraction_stops_at_approve.1 "xAPPROVEy".data

/-- **C4** — Extraction totality: the output extractor is a total function of
the transcript text; on every input it returns `Except.ok` with a parsed
value or `none` (an `Except.error` would model an uncaught Python
exception), and `not json at all` extracts to `none`. -/
theorem C4_extraction_totality :
    (∀ t : List Char, ∃ r : Option Json, extract_json_before_approve t = .ok r) ∧
    extract_json_before_approve "not json at all".data = .ok none := by
  constructor
  · intro t
    unfold extract_json_before_approve
    by_cases h : (pyStrip t).isEmpty = true
    · exact ⟨none, by rw [if_pos h]⟩
    · rw [if_neg h]
      exact extractStages_total _
  · rfl

theorem C4_extraction_totality_witness :
    ∃ r : Option Json, extract_json_before_approve "]]]![[".data = .ok r :=
  C4_extraction_totality.1 "]]]![[".data

/-! ## Claim C5: retry/backoff -/

/-- **C5** — Retry/backoff: with `max_retries = 3`, a collaborator that
raises a rate-limit error on attempts 0 and 1 and succeeds on attempt 2
succeeds overall, with sleeps of `2^0 = 1` and `2^1 = 2` seconds between
attempts; a collaborator that raises on all three attempts re-raises to the
caller after the last attempt, with no third sleep and no further retry. -/
theorem C5_retry_backoff :
    (∀ (α : Type) (r : α),
      run_with_backoff (fun n => if n < 2 then .error () else .ok r) 3 =
        (.ok (some r), [1, 2])) ∧
    run_with_backoff (fun _ : Nat => (.error () : Except Unit Nat)) 3 =
      (.error (), [1, 2]) := by
  refine ⟨fun α r => rfl, rfl⟩

/-! ## Claims C2, C7, C10: the List Store upsert -/

theorem optEq_refl (a : Option Json) : optEq a a = true := by
  cases a with
  | none => rfl
  | some j => simpa [optEq] using Json.beq_refl j

/-- Re-running the scan on a list in which the record was just replaced
finds the record at the same position and replaces it with itself. -/
theorem upsertScan_some {k : String} {nid : Option Json} {entry : Json}
    (hk : entryKey k entry = .ok nid) :
    ∀ {l l' : List Json}, upsertScan k nid entry l = .ok (some l') →
      upsertScan k nid entry l' = .ok (some l') := by
  intro l
  induction l with
  | nil => intro l' h; cases h
  | cons e rest ih =>
    intro l' h
    simp only [upsertScan] at h
    cases hE : entryKey k e with
    | error err => simp only [hE] at h; cases h
    | ok eid =>
      simp only [hE] at h
      by_cases heq : optEq eid nid = true
      · rw [if_pos heq] at h
        obtain rfl : entry :: rest = l' := Option.some.inj (Except.ok.inj h)
        simp only [upsertScan]
        rw [hk]
        simp only [if_pos (optEq_refl nid)]
      · rw [if_neg heq] at h
        cases hR : upsertScan k nid entry rest with
        | error err => simp only [hR] at h; cases h
        | ok o =>
          simp only [hR] at h
          cases o with
          | none => exact Option.noConfusion (Except.ok.inj h)
          | some rest' =>
            obtain rfl : e :: rest' = l' := Option.some.inj (Except.ok.inj h)
            simp only [upsertScan]
            simp only [hE, if_neg heq, ih hR]

/-- Re-running the scan on a list to which the record was just appended
replaces the appended record with itself. -/
theorem upsertScan_none_append {k : String} {nid : Option Json} {entry : Json}
    (hk : entryKey k entry = .ok nid) :
    ∀ {l : List Json}, upsertScan k nid entry l = .ok none →
      upsertScan k nid entry (l ++ [entry]) = .ok (some (l ++ [entry])) := by
  intro l
  induction l with
  | nil =>
    intro h
    simp only [List.nil_append, upsertScan]
    rw [hk]
    simp only [if_pos (optEq_refl nid)]
  | cons e rest ih =>
    intro h
    simp only [upsertScan] at h
    simp only [List.cons_append, upsertScan]
    cases hE : entryKey k e with
    | error err => simp only [hE] at h; cases h
    | ok eid =>
      simp only [hE] at h
      simp only [hE]
      by_cases heq : optEq eid nid = true
      · rw [if_pos heq] at h; cases h
      · rw [if_neg heq] at h
        rw [if_neg heq]
        cases hR : upsertScan k nid entry rest with
        | error err => simp only [hR] at h; cases h
        | ok o =>
          simp only [hR] at h
          cases o with
          | some rest' => exact Option.noConfusion (Except.ok.inj h)
          | none =>
            simp only [List.append_eq]
            rw [ih hR]

theorem loadStored_arr (l : List Json) : loadStored (some (.arr l)) = l := rfl

/-- The file content after one upsert, as a function of the scan result. -/
theorem upsertFile_eq {k : String} {r entry : Json} {nid : Option Json}
    (hu : unwrapEntry r = some entry) (hk : entryKey k entry = .ok nid)
    (ht : optTruthy nid = true) (f : Option Json) :
    upsertFile k f r =
      match upsertScan k nid entry (loadStored f) with
      | .error _ => f
      | .ok (some l') => some (.arr l')
      | .ok none => some (.arr (loadStored f ++ [entry])) := by
  unfold upsertFile update_json_list
  simp only [hu, hk, ht]
  cases upsertScan k nid entry (loadStored f) with
  | error err => rfl
  | ok o => cases o <;> rfl

/-- **C2** — Upsert idempotence: for every stored file and every record
carrying a (truthy) logical key, upserting the identical record twice leaves
the stored list exactly as after the first upsert — same length, content and
order. -/
theorem C2_upsert_idempotent (k : String) (file : Option Json) {r entry : Json}
    {nid : Option Json} (hu : unwrapEntry r = some entry)
    (hk : entryKey k entry = .ok nid) (ht : optTruthy nid = true) :
    upsertFile k (upsertFile k file r) r = upsertFile k file r := by
  rw [upsertFile_eq hu hk ht file]
  cases hscan : upsertScan k nid entry (loadStored file) with
  | error err =>
    rw [upsertFile_eq hu hk ht file, hscan]
  | ok o =>
    cases o with
    | some l' =>
      rw [upsertFile_eq hu hk ht (some (.arr l')), loadStored_arr,
        upsertScan_some hk hscan]
    | none =>
      rw [upsertFile_eq hu hk ht (some (.arr (loadStored file ++ [entry]))), loadStored_arr,
        upsertScan_none_append hk hscan]

theorem C2_upsert_idempotent_witness :
    upsertFile "registration_id"
      (upsertFile "registration_id" (some (.arr [])) (.obj [("registration_id", .str "X")]))
      (.obj [("registration_id", .str "X")]) =
    upsertFile "registration_id" (some (.arr [])) (.obj [("registration_id", .str "X")]) :=
  C2_upsert_idempotent "registration_id" (some (.arr [])) rfl rfl rfl

/-- Counterexample to **C7** as stated: a record with neither key field is
*not* appended — the upsert returns without writing (`skippedNoKey`) and the
stored list stays empty. -/
theorem C7_counterexample :
    update_json_list "registration_id" (some (.arr [])) (.obj [("note", .str "n")]) =
      (.skippedNoKey, some (.arr [])) ∧
    upsertFile "registration_id" (some (.arr [])) (.obj [("note", .str "n")]) ≠
      some (.arr [.obj [("note", .str "n")]]) := by
  refine ⟨rfl, ?_⟩
  intro h
  rw [show upsertFile "registration_id" (some (.arr [])) (.obj [("note", .str "n")]) =
      some (.arr []) from rfl] at h
  exact List.noConfusion (Json.arr.inj (Option.some.inj h))

/-- **C7** (amended) — Keyless record handling: a record whose (unwrapped)
entry carries no truthy `registration_id`/`RegistrationNumber` is not
appended; `update_json_list` logs an error and returns without writing,
leaving the stored file unchanged. -/
theorem C7_keyless_record_skipped (k : String) (file : Option Json) {r entry : Json}
    {nid : Option Json} (hu : unwrapEntry r = some entry)
    (hk : entryKey k entry = .ok nid) (ht : optTruthy nid = false) :
    update_json_list k file r = (.skippedNoKey, file) := by
  unfold update_json_list
  simp only [hu, hk, ht, if_true]

theorem C7_keyless_record_skipped_witness :
    update_json_list "registration_id" (some (.arr []))
      (.obj [("note", .str "n")]) = (.skippedNoKey, some (.arr [])) :=
  C7_keyless_record_skipped "registration_id" (some (.arr [])) rfl rfl rfl

/-- **C10** — Entry shape guard: an entry that is a list of length ≠ 1, or
neither a dict nor a list, makes `update_json_list` log an error and return
without writing, leaving the file unchanged; and only a dict or a
single-element list holding one dict is ever persisted (`written`). -/
theorem C10_entry_shape_guard :
    (∀ (k : String) (file : Option Json) (e : Json), badShape e = true →
      update_json_list k file e = (.skippedShape, file)) ∧
    (∀ (k : String) (file : Option Json) (e : Json),
      (update_json_list k file e).1 = .written → isDictOrSingletonDict e = true) := by
  constructor
  · intro k file e hbad
    have hu : unwrapEntry e = none := by
      cases e with
      | arr l =>
        match l with
        | [] => rfl
        | [a] => exact absurd hbad (by simp [badShape])
        | a :: b :: bs => rfl
      | obj f => exact absurd hbad (by simp [badShape])
      | null => rfl
      | bool b => rfl
      | num n => rfl
      | str s => rfl
    unfold update_json_list
    rw [hu]
  · intro k file e hw
    unfold update_json_list at hw
    cases hu : unwrapEntry e with
    | none => rw [hu] at hw; exact absurd hw (by simp)
    | some entry =>
      simp only [hu] at hw
      cases hkE : entryKey k entry with
      | error err => simp only [hkE] at hw; exact absurd hw (by simp)
      | ok nid =>
        have hobj : ∃ f, entry = .obj f := by
          cases entry with
          | obj f => exact ⟨f, rfl⟩
          | null => exact absurd hkE (by simp [entryKey, entryGet])
          | bool b => exact absurd hkE (by simp [entryKey, entryGet])
          | num n => exact absurd hkE (by simp [entryKey, entryGet])
          | str s => exact absurd hkE (by simp [entryKey, entryGet])
          | arr l => exact absurd hkE (by simp [entryKey, entryGet])
        obtain ⟨f, rfl⟩ := hobj
        cases e with
        | obj g => rfl
        | arr l =>
          match l, hu with
          | [x], hu =>
            have : x = .obj f := Option.some.inj hu
            rw [this]
            rfl
        | null => exact Option.noConfusion hu
        | bool b => exact Option.noConfusion hu
        | num n => exact Option.noConfusion hu
        | str s => exact Option.noConfusion hu

theorem C10_entry_shape_guard_witness :
    update_json_list "registration_id" (some (.arr [])) (.num 7) =
      (.skippedShape, some (.arr [])) ∧
    isDictOrSingletonDict (.obj [("registration_id", .str "X")]) = true :=
  ⟨C10_entry_shape_guard.1 "registration_id" (some (.arr [])) (.num 7) rfl,
   C10_entry_shape_guard.2 "registration_id" (some (.arr []))
     (.obj [("registration_id", .str "X")]) rfl⟩

/-- Counterexample to **C6** as stated: flushing a batch whose record key is
already stored appends rather than replaces — the flushed list keeps two
records for the key while the List Store upsert of the same batch keeps
one. -/
theorem C6_counterexample :
    (loadStored (flushFile
        (some (.arr [.obj [("registration_id", .str "X"), ("v", .num 1)]]))
        [.obj [("registration_id", .str "X"), ("v", .num 2)]]).1).length = 2 ∧
    (loadStored (List.foldl (fun f r => upsertFile "registration_id" f r)
        (some (.arr [.obj [("registration_id", .str "X"), ("v", .num 1)]]))
        [.obj [("registration_id", .str "X"), ("v", .num 2)]])).length = 1 ∧
    (loadStored (flushFile
        (some (.arr [.obj [("registration_id", .str "X"), ("v", .num 1)]]))
        [.obj [("registration_id", .str "X"), ("v", .num 2)]]).1).length ≠
    (loadStored (List.foldl (fun f r => upsertFile "registration_id" f r)
        (some (.arr [.obj [("registration_id", .str "X"), ("v", .num 1)]]))
        [.obj [("registration_id", .str "X"), ("v", .num 2)]])).length := by
  refine ⟨rfl, rfl, by decide⟩

/-- **C6** (amended) — `flush(file)` is a read-append-write: it appends the
whole buffered batch to the stored list in order, with no keyed
insert-or-replace (an already-stored key yields duplicate records), and then
clears the buffer for that file; an empty buffer is skipped unchanged. -/
theorem C6_flush_plain_append :
    (∀ (file : Option Json) (pending : List Json), pending ≠ [] →
      flushFile file pending = (some (.arr (loadStored file ++ pending)), [])) ∧
    (∀ file : Option Json, flushFile file [] = (file, [])) := by
  constructor
  · intro file pending h
    unfold flushFile
    rw [if_neg (by simp [isEmpty_false_of_ne h])]
  · intro file
    rfl

theorem C6_flush_plain_append_witness :
    flushFile (some (.arr [])) [.obj [("registration_id", .str "X")]] =
      (some (.arr (loadStored (some (.arr [])) ++ [.obj [("registration_id", .str "X")]])), []) :=
  C6_flush_plain_append.1 (some (.arr [])) [.obj [("registration_id", .str "X")]]
    (List.cons_ne_nil _ _)

/-! ## Claims C1, C8: the capacity allocator -/

theorem capLookup_capUpdate {id : Json} {s : CapState} {rec : SupplierCap}
    (h : capLookup id s = some rec) (nr : SupplierCap) :
    capLookup id (capUpdate id nr s) = some nr := by
  induction s with
  | nil => cases h
  | cons kv rest ih =>
    obtain ⟨k, v⟩ := kv
    simp only [capLookup, capUpdate] at h ⊢
    by_cases hb : Json.beq k id = true
    · simp only [hb, if_true, if_pos hb, capLookup]
    · rw [if_neg hb] at h
      rw [if_neg hb]
      simp only [capLookup]
      rw [if_neg hb]
      exact ih h

/-- Dissection of a successful increment: the supplier of the last match was
found, the check `used + 1 ≤ capacity` passed, and the new state updates
exactly that record (`Used + 1`, recomputed `UsedPct`). -/
theorem cap_update_ok_shape {s : CapState} {m : List Json} {s' : CapState}
    (h : update_supplier_capacity s m = .ok s') :
    ∃ sid rec, matchSupplierId m = some sid ∧ sid.truthy = true ∧
      capLookup sid s = some rec ∧ rec.used + 1 ≤ rec.capacity ∧
      s' = capUpdate sid
        { capacity := rec.capacity, used := rec.used + 1,
          usedPct :=
            if rec.capacity > 0 then
              pyRound2 (((rec.used + 1 : Int) : ℚ) / ((rec.capacity : Int) : ℚ))
            else 0 } s := by
  unfold update_supplier_capacity at h
  by_cases hall : (!(m.all Json.isObj)) = true
  · rw [if_pos hall] at h; cases h
  · rw [if_neg hall] at h
    cases hlast : m.getLast? with
    | none => simp only [hlast] at h; cases h
    | some mlast =>
      simp only [hlast] at h
      cases hsid : matchSupplierId m with
      | none => simp only [hsid] at h; cases h
      | some sid =>
        simp only [hsid] at h
        by_cases htr : sid.truthy = false
        · rw [if_pos htr] at h; cases h
        · rw [if_neg htr] at h
          cases hlook : capLookup sid s with
          | none => simp only [hlook] at h; cases h
          | some rec =>
            simp only [hlook] at h
            by_cases hcap : rec.used + 1 > rec.capacity
            · rw [if_pos hcap] at h; cases h
            · rw [if_neg hcap] at h
              refine ⟨sid, rec, rfl, ?_, hlook, by omega, (Except.ok.inj h).symm⟩
              cases htv : sid.truthy with
              | true => rfl
              | false => exact absurd htv htr

/-- **C1** — Capacity safety: (1) a successful increment raises the matched
supplier's `Used` by one, with the new `Used` at most `Capacity`; (2) along
every sequence of increments, after every successful step the incremented
supplier satisfies `Used ≤ Capacity` in the persisted state; (3) an
increment that would make `Used + 1` exceed `Capacity` raises the
capacity-exceeded error carrying the supplier id, the attempted `Used` and
the `Capacity`, and leaves every supplier's record (hence `Used` and
`UsedPct`) unchanged. -/
theorem C1_capacity_safety :
    (∀ (s : CapState) (m : List Json) (s' : CapState),
      update_supplier_capacity s m = .ok s' →
      ∃ sid rec rec', matchSupplierId m = some sid ∧ capLookup sid s = some rec ∧
        capLookup sid s' = some rec' ∧ rec'.used = rec.used + 1 ∧
        rec'.capacity = rec.capacity ∧ rec'.used ≤ rec'.capacity) ∧
    (∀ (s0 : CapState) (ms : List (List Json)) (m : List Json) (st : CapState),
      (m, st, (none : Option CapErr)) ∈ capRun s0 ms →
      ∃ sid rec, matchSupplierId m = some sid ∧ capLookup sid st = some rec ∧
        rec.used ≤ rec.capacity) ∧
    (∀ (s : CapState) (m : List Json) (sid : Json) (rec : SupplierCap),
      m.all Json.isObj = true → matchSupplierId m = some sid → sid.truthy = true →
      capLookup sid s = some rec → rec.used + 1 > rec.capacity →
      update_supplier_capacity s m =
        .error (.capacityExceeded sid (rec.used + 1) rec.capacity) ∧
      capStep s m = (s, some (.capacityExceeded sid (rec.used + 1) rec.capacity))) := by
  have part1 : ∀ (s : CapState) (m : List Json) (s' : CapState),
      update_supplier_capacity s m = .ok s' →
      ∃ sid rec rec', matchSupplierId m = some sid ∧ capLookup sid s = some rec ∧
        capLookup sid s' = some rec' ∧ rec'.used = rec.used + 1 ∧
        rec'.capacity = rec.capacity ∧ rec'.used ≤ rec'.capacity := by
    intro s m s' h
    obtain ⟨sid, rec, hsid, htr, hlook, hle, rfl⟩ := cap_update_ok_shape h
    exact ⟨sid, rec, _, hsid, hlook, capLookup_capUpdate hlook _, rfl, rfl, hle⟩
  refine ⟨part1, ?_, ?_⟩
  · intro s0 ms
    induction ms generalizing s0 with
    | nil => intro m st hmem; cases hmem
    | cons m0 rest ih =>
      intro m st hmem
      unfold capRun at hmem
      rcases List.mem_cons.mp hmem with heq | hmem'
      · have hm : m = m0 := congrArg (·.1) heq
        have hst : st = (capStep s0 m0).1 := congrArg (·.2.1) heq
        have herr : (none : Option CapErr) = (capStep s0 m0).2 := congrArg (·.2.2) heq
        subst hm
        subst hst
        cases hupd : update_supplier_capacity s0 m with
        | error e =>
          have h2 : (capStep s0 m).2 = some e := by simp [capStep, hupd]
          rw [h2] at herr
          cases herr
        | ok s' =>
          have h1 : (capStep s0 m).1 = s' := by simp [capStep, hupd]
          rw [h1]
          obtain ⟨sid, rec, rec', hsid, _, hlook', hused, hcapEq, hle⟩ := part1 s0 m s' hupd
          exact ⟨sid, rec', hsid, hlook', hle⟩
      · exact ih _ _ _ hmem'
  · intro s m sid rec hall hsid htr hlook hcap
    have hfirst : update_supplier_capacity s m =
        .error (.capacityExceeded sid (rec.used + 1) rec.capacity) := by
      unfold update_supplier_capacity
      rw [if_neg (by simp [hall])]
      have hlast : ∃ mlast, m.getLast? = some mlast := by
        unfold matchSupplierId at hsid
        cases hl : m.getLast? with
        | none => rw [hl] at hsid; cases hsid
        | some mlast => exact ⟨mlast, rfl⟩
      obtain ⟨mlast, hlast⟩ := hlast
      simp only [hlast, hsid, htr, hlook]
      rw [if_neg (by simp), if_pos hcap]
    refine ⟨hfirst, ?_⟩
    unfold capStep
    rw [hfirst]

theorem C1_capacity_safety_witness :
    update_supplier_capacity [((.str "S1" : Json), ⟨1, 1, 1⟩)]
        [.obj [("SupplierID", .str "S1")]] =
      .error (.capacityExceeded (.str "S1") ((1 : Int) + 1) 1) ∧
    capStep [((.str "S1" : Json), ⟨1, 1, 1⟩)] [.obj [("SupplierID", .str "S1")]] =
      ([((.str "S1" : Json), ⟨1, 1, 1⟩)],
        some (.capacityExceeded (.str "S1") ((1 : Int) + 1) 1)) :=
  C1_capacity_safety.2.2 [((.str "S1" : Json), ⟨1, 1, 1⟩)]
    [.obj [("SupplierID", .str "S1")]] (.str "S1") ⟨1, 1, 1⟩
    rfl rfl rfl rfl (by decide)

/-- Counterexample to **C8** as stated: with `Capacity = 3`, after one
successful increment the stored `UsedPct` is `0.33`, which is not exactly
`Used/Capacity = 1/3`. -/
theorem C8_counterexample :
    ∃ rec' : SupplierCap,
      capLookup (.str "S")
        (capStep [((.str "S" : Json), ⟨3, 0, 0⟩)] [.obj [("SupplierID", .str "S")]]).1 =
        some rec' ∧
      rec'.used = 1 ∧ rec'.capacity = 3 ∧
      rec'.usedPct ≠ (rec'.used : ℚ) / (rec'.capacity : ℚ) := by
  have h0 : capLookup (.str "S")
      (capStep [((.str "S" : Json), ⟨3, 0, 0⟩)] [.obj [("SupplierID", .str "S")]]).1 =
      some ⟨3, (0 : Int) + 1,
        if (3 : Int) > 0 then
          pyRound2 ((((0 : Int) + 1 : Int) : ℚ) / ((3 : Int) : ℚ))
        else 0⟩ := rfl
  have h1 : (if (3 : Int) > 0 then
      pyRound2 ((((0 : Int) + 1 : Int) : ℚ) / ((3 : Int) : ℚ)) else 0) = 33/100 := by
    norm_num
    unfold pyRound2 pyRoundHalfEven
    norm_num
  refine ⟨⟨3, 1, 33/100⟩, ?_, rfl, rfl, by norm_num⟩
  rw [h0, h1]
  norm_num

/-- **C8** (amended) — `UsedPct` definition: after every successful capacity
increment the stored `UsedPct` equals `Used/Capacity` rounded half-to-even
to two decimal places, and equals `0` when `Capacity` is not positive (in
particular when it is `0`). -/
theorem C8_usedpct_rounded (s : CapState) (m : List Json) (s' : CapState)
    (sid : Json) (rec : SupplierCap) (h : update_supplier_capacity s m = .ok s')
    (hsid : matchSupplierId m = some sid) (hlook : capLookup sid s = some rec) :
    capLookup sid s' = some
      { capacity := rec.capacity, used := rec.used + 1,
        usedPct :=
          if rec.capacity > 0 then
            pyRound2 (((rec.used + 1 : Int) : ℚ) / ((rec.capacity : Int) : ℚ))
          else 0 } := by
  obtain ⟨sid', rec', hsid', htr', hlook', hle', rfl⟩ := cap_update_ok_shape h
  obtain rfl : sid' = sid := Option.some.inj (hsid'.symm.trans hsid)
  obtain rfl : rec' = rec := Option.some.inj (hlook'.symm.trans hlook)
  exact capLookup_capUpdate hlook _

theorem C8_usedpct_rounded_witness :
    capLookup (.str "S")
      (capStep [((.str "S" : Json), ⟨3, 0, 0⟩)] [.obj [("SupplierID", .str "S")]]).1 =
      some { capacity := 3, used := (0 : Int) + 1,
             usedPct :=
               if (3 : Int) > 0 then
                 pyRound2 ((((0 : Int) + 1 : Int) : ℚ) / ((3 : Int) : ℚ))
               else 0 } :=
  C8_usedpct_rounded [((.str "S" : Json), ⟨3, 0, 0⟩)] [.obj [("SupplierID", .str "S")]]
    (capStep [((.str "S" : Json), ⟨3, 0, 0⟩)] [.obj [("SupplierID", .str "S")]]).1
    (.str "S") ⟨3, 0, 0⟩ rfl rfl rfl

/-! ## Claim C9: the group-phase success predicate -/

/-- **C9** — For a group phase ("Matcher1-Critic-Matcher2"), a run in which
both producers delivered structured payloads and approval arrives via the
session's terminal stop reason raises a `KeyError` (the code reads
`json_outputs["1"]`, a key that is never created) instead of returning a
result; the same run with the approval signalled by a critic message
returns success with both payloads. -/
theorem C9_group_stop_reason_keyerror :
    process_pair "Matcher1-Critic-Matcher2"
      [.structured "Matcher1" (.arr [.num 1]),
       .structured "Matcher2" (.arr [.num 2]),
       .taskResult (some "Stop reason: APPROVE")] = .error () ∧
    process_pair "Matcher1-Critic-Matcher2"
      [.structured "Matcher1" (.arr [.num 1]),
       .structured "Matcher2" (.arr [.num 2]),
       .text "Critic" "APPROVE"] =
      .ok ⟨true, none,
        some [("matches", some (.arr [.num 1])), ("pos", some (.arr [.num 2]))]⟩ :=
  ⟨rfl, rfl⟩

end Igent
